import Mathlib

/-!
Verification development for the `git_cmd_tool` repository: a shallow
embedding, in Lean 4, of the classes `GitCloneControl` and
`GitCloneManager` and of the command-wrapper functions in `git_cmd.py`,
together with theorems settling the specified properties.

Modelling conventions:
* Python dictionaries with fixed keys become structures; `dict.get(k)`
  returning `None` for a missing key becomes `Option String` fields.
* The filesystem is an abstract read-only view (`FileSystem`): a
  predicate saying which paths exist, and the `Path.parent` operation
  left abstract.  Operations that would mutate the filesystem or shell
  out to git instead return the list of side effects (`FsEffect`) they
  would perform, alongside their result.
* Python exceptions become `Except String`; a raised exception carries
  its message string.  Code that mutates local state before raising is
  modelled by returning the mutated state together with the pending
  exception, so that the caller's `except` handler can observe it,
  exactly as the in-place mutation is observed in Python.
* Calls to `GitCloneControl.update` from the manager depend on the
  ambient filesystem and on subprocess outcomes, so at the manager level
  each call site is given the outcome of that call by an oracle:
  `upd : Nat → UpdateOutcome` gives the outcome of the i-th item's
  single `update` invocation (items are invoked at most once per run).
-/

namespace GitCmdTool

/-- Python's `str.startswith` for one candidate: character-wise prefix
test (written over the character list so that it evaluates by kernel
reduction). -/
def strStartsWith (s pre : String) : Bool :=
  pre.data.isPrefixOf s.data

/-- Embeds `git_cmd.is_local_path`: a source location is remote exactly
when it starts with one of the five fixed scheme strings; everything
else is treated as a local path. -/
def is_local_path (repo_path : String) : Bool :=
  if strStartsWith repo_path "http://" || strStartsWith repo_path "https://"
      || strStartsWith repo_path "git://" || strStartsWith repo_path "ssh://"
      || strStartsWith repo_path "git@" then
    false
  else
    true

/-- Abstract read-only view of the filesystem: which paths exist, and
the `Path.parent` operation (left abstract, as no claim depends on how
a parent path is computed). -/
structure FileSystem where
  pathExists : String → Bool
  parent : String → String

/-- `Path(base) / child` as used by the source. -/
def joinPath (base child : String) : String := base ++ "/" ++ child

/-- Embeds `git_cmd.is_git_repository`: a path is a repository when a
`.git` entry or a `HEAD` entry exists under it. -/
def is_git_repository (fs : FileSystem) (path : String) : Bool :=
  if fs.pathExists (joinPath path ".git") then true
  else if fs.pathExists (joinPath path "HEAD") then true
  else false

/-- Side effects that `git_cmd` functions would perform on the world:
recursive deletion, `mkdir -p`, and the two git subprocess calls. -/
inductive FsEffect where
  | rmtree (path : String)
  | mkdirParents (path : String)
  | runClone (src dst : String)
  | runInitBare (path : String)
deriving DecidableEq

/-- Embeds `git_cmd.git_clone`.  `cloneOk` is the oracle for the
subprocess outcome of `git clone` (run with `check=True`, so a failing
subprocess raises).  Returns the result (`Except` models the raised
`CalledProcessError`) together with the effects performed. -/
def git_clone (fs : FileSystem) (cloneOk : Bool) (repo_url clone_path : String)
    (force : Bool) : Except String Bool × List FsEffect :=
  if fs.pathExists clone_path then
    if force then
      let effs := [FsEffect.rmtree clone_path,
                   FsEffect.mkdirParents (fs.parent clone_path),
                   FsEffect.runClone repo_url clone_path]
      if cloneOk then (Except.ok true, effs) else (Except.error "CalledProcessError", effs)
    else
      if fs.pathExists (joinPath clone_path ".git") then (Except.ok true, [])
      else (Except.ok false, [])
  else
    let effs := [FsEffect.mkdirParents (fs.parent clone_path),
                 FsEffect.runClone repo_url clone_path]
    if cloneOk then (Except.ok true, effs) else (Except.error "CalledProcessError", effs)

/-- One (source, destination) relationship: `GitCloneControl`'s stored
fields.  `_is_local` is derived from `repo_path` at construction and the
fields are immutable, so it is exposed as the function
`is_local_repository` rather than stored. -/
structure GitCloneControl where
  name : String
  repo_path : String
  clone_path : String
deriving DecidableEq

/-- Embeds the `is_local_repository` property. -/
def GitCloneControl.is_local_repository (c : GitCloneControl) : Bool :=
  is_local_path c.repo_path

/-- Embeds the `repository_exists` property: remote sources always
count as existing. -/
def GitCloneControl.repository_exists (fs : FileSystem) (c : GitCloneControl) : Bool :=
  if c.is_local_repository then is_git_repository fs c.repo_path else true

/-- Embeds the `clone_exists` property. -/
def GitCloneControl.clone_exists (fs : FileSystem) (c : GitCloneControl) : Bool :=
  is_git_repository fs c.clone_path

/-- Embeds `GitCloneControl.ensure_clone`: skip when the clone already
exists and `force` is off, otherwise delegate to `git_clone`. -/
def GitCloneControl.ensure_clone (fs : FileSystem) (cloneOk : Bool)
    (c : GitCloneControl) (force : Bool) : Except String Bool × List FsEffect :=
  if c.clone_exists fs && !force then (Except.ok true, [])
  else git_clone fs cloneOk c.repo_path c.clone_path force

/-- Embeds `GitCloneControl.__str__`. -/
def GitCloneControl.toStr (c : GitCloneControl) : String :=
  "GitCloneControl(" ++ c.repo_path ++ " -> " ++ c.clone_path ++ ")"

/-- One entry of the configuration record: `data.get(key)` yields
`none` when the key is absent. -/
structure ControlData where
  name : Option String
  repository_path : Option String
  target_path : Option String
deriving DecidableEq

/-- Python truthiness of an optional string: `None` and the empty
string are falsy. -/
def truthyStr : Option String → Bool
  | none => false
  | some s => !s.isEmpty

/-- Embeds `GitCloneControl.from_dict`: each required field is checked
for truthiness in order, and the first falsy one raises `ValueError`. -/
def GitCloneControl.from_dict (data : ControlData) : Except String GitCloneControl :=
  if !truthyStr data.name then Except.error "nameが指定されていません"
  else if !truthyStr data.repository_path then Except.error "repository_pathが指定されていません"
  else if !truthyStr data.target_path then Except.error "target_pathが指定されていません"
  else Except.ok ⟨data.name.getD "", data.repository_path.getD "", data.target_path.getD ""⟩

/-- Embeds `GitCloneControl.to_dict`. -/
def GitCloneControl.to_dict (c : GitCloneControl) : ControlData :=
  ⟨some c.name, some c.repo_path, some c.clone_path⟩

/-- The control that `from_dict` builds from a well-formed entry. -/
def mkControl (cd : ControlData) : GitCloneControl :=
  ⟨cd.name.getD "", cd.repository_path.getD "", cd.target_path.getD ""⟩

/-- An entry on which `from_dict` succeeds: all three required fields
present and non-empty. -/
def wellFormedData (cd : ControlData) : Bool :=
  truthyStr cd.name && truthyStr cd.repository_path && truthyStr cd.target_path

/-- `GitCloneManager`'s state: the ordered list of controls. -/
structure GitCloneManager where
  controls : List GitCloneControl
deriving DecidableEq

/-- Embeds `GitCloneManager.appendControl` (the type check always
passes in the typed embedding). -/
def GitCloneManager.appendControl (m : GitCloneManager) (c : GitCloneControl) :
    GitCloneManager :=
  ⟨m.controls ++ [c]⟩

/-- Embeds `GitCloneManager.get_control_by_name`: linear scan returning
the first control with the given name. -/
def GitCloneManager.get_control_by_name (m : GitCloneManager) (name : String) :
    Option GitCloneControl :=
  m.controls.find? (fun c => c.name == name)

/-- The loop of `load_from_dict`: build each control, append it to the
manager, and re-raise on the first failure.  The manager mutated so far
is returned alongside the outcome, since Python's `self.controls` keeps
the appends made before the exception. -/
def loadControlsLoop (m : GitCloneManager) (count : Nat) :
    List ControlData → GitCloneManager × Except String Nat
  | [] => (m, Except.ok count)
  | cd :: rest =>
    match GitCloneControl.from_dict cd with
    | Except.error e => (m, Except.error e)
    | Except.ok c => loadControlsLoop (m.appendControl c) (count + 1) rest

/-- Embeds `GitCloneManager.load_from_dict`.  `none` models a record
without the `controls` key (which raises `ValueError`); the list shape
itself is enforced by typing. -/
def GitCloneManager.load_from_dict (m : GitCloneManager)
    (data : Option (List ControlData)) : GitCloneManager × Except String Nat :=
  match data with
  | none => (m, Except.error "controlsキーが見つかりません")
  | some cds => loadControlsLoop m 0 cds

/-- Embeds `GitCloneManager.to_dict` (the list under the `controls`
key). -/
def GitCloneManager.to_dict (m : GitCloneManager) : List ControlData :=
  m.controls.map GitCloneControl.to_dict

/-- Outcome of one call to `GitCloneControl.update`: returned `True`,
returned `False`, or raised an exception with the given message. -/
inductive UpdateOutcome where
  | ok
  | failed
  | raised (msg : String)
deriving DecidableEq

/-- The lookup-failure message of `update_by_name`. -/
def notFoundMsg (name : String) : String :=
  "指定した名前の制御オブジェクトが見つかりません: " ++ name

/-- Embeds `GitCloneManager.update_by_name`, with the single
`control.update(force)` call given by the oracle `upd`.  Returns the
result together with the list of controls whose `update` was invoked. -/
def GitCloneManager.update_by_name (m : GitCloneManager)
    (upd : GitCloneControl → UpdateOutcome) (name : String) :
    Except String Bool × List GitCloneControl :=
  match m.get_control_by_name name with
  | none => (Except.error (notFoundMsg name), [])
  | some control =>
    match upd control with
    | UpdateOutcome.ok => (Except.ok true, [control])
    | UpdateOutcome.failed => (Except.ok false, [control])
    | UpdateOutcome.raised e => (Except.error e, [control])

/-- The local counters of `GitCloneManager.update`. -/
structure BatchState where
  success_count : Nat
  error_count : Nat
  errors : List String
deriving DecidableEq

/-- The per-item failure message of `GitCloneManager.update`. -/
def procFailMsg (i n : Nat) (c : GitCloneControl) : String :=
  "[" ++ toString i ++ "/" ++ toString n ++ "] 処理失敗: " ++ c.toStr

/-- The per-item exception message of `GitCloneManager.update`. -/
def errOccurMsg (i n : Nat) (c : GitCloneControl) (e : String) : String :=
  "[" ++ toString i ++ "/" ++ toString n ++ "] エラー発生: " ++ c.toStr ++ ", エラー: " ++ e

/-- The message of the stop exception raised under `stop_on_error`. -/
def stopMsg (s : String) : String := "エラーにより処理を停止しました: " ++ s

/-- The `try` block body for item `i` of `GitCloneManager.update`:
tally the outcome, and under `stop_on_error` raise the stop exception
after recording a returned failure.  The mutated state is returned
together with the pending exception, if any. -/
def updateTryBody (outcome : UpdateOutcome) (i n : Nat) (c : GitCloneControl)
    (stop_on_error : Bool) (st : BatchState) : BatchState × Option String :=
  match outcome with
  | UpdateOutcome.ok => (⟨st.success_count + 1, st.error_count, st.errors⟩, none)
  | UpdateOutcome.failed =>
    let st1 : BatchState :=
      ⟨st.success_count, st.error_count + 1, st.errors ++ [procFailMsg i n c]⟩
    if stop_on_error then (st1, some (stopMsg c.toStr)) else (st1, none)
  | UpdateOutcome.raised e => (st, some e)

/-- One full item of `GitCloneManager.update`: the `try` body followed
by the `except Exception` handler, which records the exception (note:
this catches the stop exception raised by the body of the same item)
and re-raises the stop exception under `stop_on_error`. -/
def updateItem (outcome : UpdateOutcome) (i n : Nat) (c : GitCloneControl)
    (stop_on_error : Bool) (st : BatchState) : BatchState × Option String :=
  match updateTryBody outcome i n c stop_on_error st with
  | (st1, none) => (st1, none)
  | (st1, some e) =>
    let st2 : BatchState :=
      ⟨st1.success_count, st1.error_count + 1, st1.errors ++ [errOccurMsg i n c e]⟩
    if stop_on_error then (st2, some (stopMsg e)) else (st2, none)

/-- The `for` loop of `GitCloneManager.update` over 1-based enumerated
items.  Returns the final counters, the propagating exception if any,
and the 1-based positions whose `update` was invoked. -/
def updateLoop (upd : Nat → UpdateOutcome) (n : Nat) (stop_on_error : Bool) :
    List (Nat × GitCloneControl) → BatchState → BatchState × Option String × List Nat
  | [], st => (st, none, [])
  | (i, c) :: rest, st =>
    match updateItem (upd i) i n c stop_on_error st with
    | (st1, some e) => (st1, some e, [i])
    | (st1, none) =>
      match updateLoop upd n stop_on_error rest st1 with
      | (st2, exc, invoked) => (st2, exc, i :: invoked)

/-- `enumerate(controls, 1)`. -/
def enumFrom1 (cs : List GitCloneControl) : List (Nat × GitCloneControl) :=
  cs.enum.map (fun p => (p.1 + 1, p.2))

/-- Embeds `GitCloneManager.update` (the batch update).  `upd i` is the
outcome of the i-th item's `control.update(force)` call.  Returns the
overall result (`Except.error` models the propagated stop exception),
the final counters, and the 1-based positions invoked. -/
def GitCloneManager.update (m : GitCloneManager) (upd : Nat → UpdateOutcome)
    (stop_on_error : Bool) : Except String Bool × BatchState × List Nat :=
  if m.controls.isEmpty then (Except.ok true, ⟨0, 0, []⟩, [])
  else
    match updateLoop upd m.controls.length stop_on_error (enumFrom1 m.controls) ⟨0, 0, []⟩ with
    | (st, some e, invoked) => (Except.error e, st, invoked)
    | (st, none, invoked) => (Except.ok (st.error_count == 0), st, invoked)

/-- The duplicate-destination message of `GitCloneManager.validate`. -/
def dupPathMsg (p : String) : String := "クローン先パスが重複しています: " ++ p

/-- The missing-parent message of `GitCloneManager.validate`. -/
def parentMissingMsg (p : String) : String :=
  "リポジトリの親ディレクトリが存在しません: " ++ p

/-- The inner duplicate-check loop of `validate` for item `i`: one
message per other index `j ≠ i` with the same clone path. -/
def validateDupMsgs (numbered : List (Nat × GitCloneControl)) (i : Nat)
    (c : GitCloneControl) : List String :=
  numbered.filterMap (fun jc =>
    if i != jc.1 && (c.clone_path == jc.2.clone_path) then
      some (dupPathMsg c.clone_path)
    else none)

/-- The per-item body of `validate`: duplicate-path messages, then the
local-source creatability check.  The Python `except` arm is
unreachable in the embedding (all checks are total), so it is omitted. -/
def validateControlMsgs (fs : FileSystem) (numbered : List (Nat × GitCloneControl))
    (i : Nat) (c : GitCloneControl) : List String :=
  validateDupMsgs numbered i c ++
    (if c.is_local_repository && !(c.repository_exists fs) then
      (if !(fs.pathExists (fs.parent c.repo_path)) then [parentMissingMsg c.repo_path]
       else [])
     else [])

/-- Embeds `GitCloneManager.validate`. -/
def GitCloneManager.validate (fs : FileSystem) (m : GitCloneManager) : List String :=
  ((enumFrom1 m.controls).map
    (fun ic => validateControlMsgs fs (enumFrom1 m.controls) ic.1 ic.2)).flatten

/-! ### Helper lemmas -/

theorem truthyStr_none : truthyStr none = false := rfl

theorem truthyStr_empty : truthyStr (some "") = false := by decide

theorem truthyStr_true_iff (o : Option String) :
    truthyStr o = true ↔ ∃ s, o = some s ∧ s ≠ "" := by
  cases o with
  | none => simp [truthyStr]
  | some s => simp [truthyStr, Ne, ← String.isEmpty_iff]

theorem from_dict_ok_iff (cd : ControlData) (c : GitCloneControl) :
    GitCloneControl.from_dict cd = Except.ok c ↔
      wellFormedData cd = true ∧ c = mkControl cd := by
  unfold GitCloneControl.from_dict wellFormedData mkControl
  cases h1 : truthyStr cd.name <;> cases h2 : truthyStr cd.repository_path <;>
    cases h3 : truthyStr cd.target_path <;> simp [h1, h2, h3, eq_comm]

theorem from_dict_eq_ok (cd : ControlData) (h : wellFormedData cd = true) :
    GitCloneControl.from_dict cd = Except.ok (mkControl cd) :=
  (from_dict_ok_iff cd (mkControl cd)).mpr ⟨h, rfl⟩

theorem from_dict_eq_error (cd : ControlData) (h : wellFormedData cd = false) :
    ∃ e, GitCloneControl.from_dict cd = Except.error e := by
  unfold wellFormedData at h
  unfold GitCloneControl.from_dict
  cases h1 : truthyStr cd.name <;> cases h2 : truthyStr cd.repository_path <;>
    cases h3 : truthyStr cd.target_path <;> simp [h1, h2, h3] at h ⊢

/-! ### Sample fixtures used by witnesses and counterexamples -/

/-- A sample filesystem in which exactly the path `/dst` exists. -/
def fsSample : FileSystem := ⟨fun p => p == "/dst", fun p => p⟩

def ctrlA : GitCloneControl := ⟨"a", "http://example.com/a.git", "/clones/x"⟩

def ctrlB : GitCloneControl := ⟨"b", "http://example.com/b.git", "/clones/x"⟩

def mgrDup : GitCloneManager := ⟨[ctrlA, ctrlB]⟩

/-! ### Claim theorems -/

/-- C7: `is_local_path` returns false exactly on strings starting with
one of the fixed prefixes `http://`, `https://`, `git://`, `ssh://`,
`git@`, and returns true on every other string. -/
theorem is_local_path_spec (s : String) :
    (is_local_path s = false ↔
      (strStartsWith s "http://" = true ∨ strStartsWith s "https://" = true ∨
       strStartsWith s "git://" = true ∨ strStartsWith s "ssh://" = true ∨
       strStartsWith s "git@" = true)) ∧
    (is_local_path s = true ↔
      ¬(strStartsWith s "http://" = true ∨ strStartsWith s "https://" = true ∨
        strStartsWith s "git://" = true ∨ strStartsWith s "ssh://" = true ∨
        strStartsWith s "git@" = true)) := by
  unfold is_local_path
  by_cases hb : (strStartsWith s "http://" || strStartsWith s "https://"
      || strStartsWith s "git://" || strStartsWith s "ssh://"
      || strStartsWith s "git@") = true
  · rw [if_pos hb]
    simp only [Bool.or_eq_true, or_assoc] at hb
    exact ⟨⟨fun _ => hb, fun _ => rfl⟩,
           ⟨fun h => Bool.noConfusion h, fun h => absurd hb h⟩⟩
  · rw [if_neg hb]
    simp only [Bool.or_eq_true, or_assoc] at hb
    exact ⟨⟨fun h => Bool.noConfusion h, fun hd => absurd hd hb⟩,
           ⟨fun _ => hb, fun _ => rfl⟩⟩

/-- Witness for C7 at concrete inputs. -/
theorem is_local_path_spec_witness :
    is_local_path "https://example.com/repo.git" = false ∧
    is_local_path "relative/path" = true :=
  ⟨(is_local_path_spec "https://example.com/repo.git").1.mpr
      (Or.inr (Or.inl (by decide))),
   (is_local_path_spec "relative/path").2.mpr (by decide)⟩

/-- C5: on a destination that exists but carries neither a `.git` nor a
`HEAD` marker, `ensure_clone` with `force = false` returns the soft
failure `Except.ok false` (it does not raise), and performs no effects
at all — in particular no `rmtree` and no clone subprocess — so the
directory and its contents are left unchanged. -/
theorem ensure_clone_nonrepo_noforce (fs : FileSystem) (cloneOk : Bool)
    (c : GitCloneControl)
    (hex : fs.pathExists c.clone_path = true)
    (hgit : fs.pathExists (joinPath c.clone_path ".git") = false)
    (hhead : fs.pathExists (joinPath c.clone_path "HEAD") = false) :
    GitCloneControl.ensure_clone fs cloneOk c false = (Except.ok false, []) := by
  unfold GitCloneControl.ensure_clone GitCloneControl.clone_exists
    is_git_repository git_clone
  simp [hex, hgit, hhead]

/-- Witness for C5 at a concrete filesystem and control. -/
theorem ensure_clone_nonrepo_noforce_witness :
    fsSample.pathExists "/dst" = true ∧
    fsSample.pathExists (joinPath "/dst" ".git") = false ∧
    fsSample.pathExists (joinPath "/dst" "HEAD") = false ∧
    GitCloneControl.ensure_clone fsSample true ⟨"w", "/src", "/dst"⟩ false =
      (Except.ok false, []) :=
  ⟨by decide, by decide, by decide,
   ensure_clone_nonrepo_noforce fsSample true ⟨"w", "/src", "/dst"⟩
     (by decide) (by decide) (by decide)⟩

/-- C2 counterexample: on two controls that share a clone path and
differ everywhere else, `validate` emits the duplicate-path message
twice (once per ordered direction), not exactly once. -/
theorem validate_dup_counterexample :
    GitCloneManager.validate fsSample mgrDup =
      [dupPathMsg "/clones/x", dupPathMsg "/clones/x"] ∧
    (GitCloneManager.validate fsSample mgrDup).length ≠ 1 := by
  constructor
  · rfl
  · decide

/-- C2 amended: for two controls sharing a clone path (remote sources,
so no filesystem messages interleave), `validate` returns exactly one
duplicate-path message per ordered direction — two identical messages
for the colliding pair. -/
theorem validate_dup_amended (fs : FileSystem) (c1 c2 : GitCloneControl)
    (hp : c1.clone_path = c2.clone_path)
    (h1 : is_local_path c1.repo_path = false)
    (h2 : is_local_path c2.repo_path = false) :
    GitCloneManager.validate fs ⟨[c1, c2]⟩ =
      [dupPathMsg c1.clone_path, dupPathMsg c2.clone_path] := by
  simp [GitCloneManager.validate, enumFrom1, List.enum, List.enumFrom,
        validateControlMsgs, validateDupMsgs, GitCloneControl.is_local_repository,
        h1, h2, hp]

/-- Witness for the amended C2 at concrete controls. -/
theorem validate_dup_amended_witness :
    ctrlA.clone_path = ctrlB.clone_path ∧
    is_local_path ctrlA.repo_path = false ∧
    is_local_path ctrlB.repo_path = false ∧
    GitCloneManager.validate fsSample ⟨[ctrlA, ctrlB]⟩ =
      [dupPathMsg ctrlA.clone_path, dupPathMsg ctrlB.clone_path] :=
  ⟨rfl, by decide, by decide,
   validate_dup_amended fsSample ctrlA ctrlB rfl (by decide) (by decide)⟩

/-- C10: `from_dict` rejects not only missing required fields but any
falsy value for them — `none` or the empty string for `name`,
`repository_path` or `target_path` raises `ValueError` — and hence a
control loaded from a record never has an empty field. -/
theorem from_dict_rejects_falsy (cd : ControlData) :
    ((cd.name = none ∨ cd.name = some "" ∨
      cd.repository_path = none ∨ cd.repository_path = some "" ∨
      cd.target_path = none ∨ cd.target_path = some "") →
      ∃ e, GitCloneControl.from_dict cd = Except.error e) ∧
    (∀ c, GitCloneControl.from_dict cd = Except.ok c →
      c.name ≠ "" ∧ c.repo_path ≠ "" ∧ c.clone_path ≠ "") := by
  constructor
  · intro h
    apply from_dict_eq_error
    unfold wellFormedData
    rcases h with h | h | h | h | h | h <;>
      simp [h, truthyStr_none, truthyStr_empty]
  · intro c h
    rw [from_dict_ok_iff] at h
    obtain ⟨hwf, rfl⟩ := h
    unfold wellFormedData at hwf
    simp only [Bool.and_eq_true] at hwf
    obtain ⟨s1, hs1, hn1⟩ := (truthyStr_true_iff cd.name).mp hwf.1.1
    obtain ⟨s2, hs2, hn2⟩ := (truthyStr_true_iff cd.repository_path).mp hwf.1.2
    obtain ⟨s3, hs3, hn3⟩ := (truthyStr_true_iff cd.target_path).mp hwf.2
    refine ⟨?_, ?_, ?_⟩
    · show cd.name.getD "" ≠ ""
      rw [hs1]
      exact hn1
    · show cd.repository_path.getD "" ≠ ""
      rw [hs2]
      exact hn2
    · show cd.target_path.getD "" ≠ ""
      rw [hs3]
      exact hn3

/-- Witness for C10 at a concrete entry with an empty name. -/
theorem from_dict_rejects_falsy_witness :
    ∃ e, GitCloneControl.from_dict ⟨some "", some "/r", some "/c"⟩ = Except.error e :=
  (from_dict_rejects_falsy ⟨some "", some "/r", some "/c"⟩).1
    (Or.inr (Or.inl rfl))

/-! ### Load-loop lemmas -/

theorem loadLoop_partial (pre : List ControlData) :
    ∀ (m : GitCloneManager) (count : Nat) (bad : ControlData) (rest : List ControlData),
      (∀ cd ∈ pre, wellFormedData cd = true) → wellFormedData bad = false →
      ∃ e, loadControlsLoop m count (pre ++ bad :: rest) =
        (⟨m.controls ++ pre.map mkControl⟩, Except.error e) := by
  induction pre with
  | nil =>
    intro m count bad rest _ hbad
    obtain ⟨e, he⟩ := from_dict_eq_error bad hbad
    exact ⟨e, by simp [loadControlsLoop, he]⟩
  | cons cd pre ih =>
    intro m count bad rest hpre hbad
    have hcd : wellFormedData cd = true := hpre cd (List.mem_cons_self cd pre)
    obtain ⟨e, he⟩ := ih (m.appendControl (mkControl cd)) (count + 1) bad rest
      (fun x hx => hpre x (List.mem_cons_of_mem cd hx)) hbad
    simp only [GitCloneManager.appendControl] at he
    exact ⟨e, by
      simp only [List.cons_append, loadControlsLoop, from_dict_eq_ok cd hcd,
        GitCloneManager.appendControl, List.map_cons, List.append_eq]
      rw [he]
      simp [List.append_assoc]⟩

theorem loadLoop_all_ok (cds : List ControlData) :
    ∀ (m : GitCloneManager) (count : Nat),
      (∀ cd ∈ cds, wellFormedData cd = true) →
      loadControlsLoop m count cds =
        (⟨m.controls ++ cds.map mkControl⟩, Except.ok (count + cds.length)) := by
  induction cds with
  | nil =>
    intro m count _
    simp [loadControlsLoop]
  | cons cd cds ih =>
    intro m count hall
    have hcd : wellFormedData cd = true := hall cd (List.mem_cons_self cd cds)
    have hrec := ih (m.appendControl (mkControl cd)) (count + 1)
      (fun x hx => hall x (List.mem_cons_of_mem cd hx))
    simp only [GitCloneManager.appendControl] at hrec
    simp only [loadControlsLoop, from_dict_eq_ok cd hcd,
      GitCloneManager.appendControl, hrec, List.map_cons, List.length_cons,
      Prod.mk.injEq]
    constructor
    · simp [List.append_assoc]
    · congr 1
      omega

theorem truthyStr_getD (o : Option String) (h : truthyStr o = true) :
    truthyStr (some (o.getD "")) = true := by
  obtain ⟨s, rfl, _⟩ := (truthyStr_true_iff o).mp h
  simpa using h

theorem to_dict_mkControl_wf (cd : ControlData) (h : wellFormedData cd = true) :
    wellFormedData (GitCloneControl.to_dict (mkControl cd)) = true := by
  unfold wellFormedData at h ⊢
  unfold GitCloneControl.to_dict mkControl
  simp only [Bool.and_eq_true] at h ⊢
  exact ⟨⟨truthyStr_getD _ h.1.1, truthyStr_getD _ h.1.2⟩, truthyStr_getD _ h.2⟩

theorem mkControl_to_dict (c : GitCloneControl) :
    mkControl (GitCloneControl.to_dict c) = c := rfl

/-! ### C1 fixtures and theorems -/

def goodEntry : ControlData :=
  ⟨some "a", some "http://example.com/a.git", some "/clones/a"⟩

def badEntry : ControlData :=
  ⟨none, some "http://example.com/b.git", some "/clones/b"⟩

/-- C1 counterexample: loading a record whose first entry is well
formed and whose second entry lacks `name` fails, but the collection is
NOT the same as before the load — the first control has already been
appended, so the failed load partially populates the manager. -/
theorem load_partial_population_counterexample :
    (GitCloneManager.load_from_dict ⟨[]⟩ (some [goodEntry, badEntry])).2 =
      Except.error "nameが指定されていません" ∧
    (GitCloneManager.load_from_dict ⟨[]⟩ (some [goodEntry, badEntry])).1.controls ≠ [] := by
  constructor
  · rfl
  · decide

/-- C1 amended: loading a record with a malformed entry fails with an
error, and the first malformed entry aborts the whole load — the
entries after it are never examined (`rest` is arbitrary and absent
from the result) — but the collection is not restored: it equals the
old collection extended by the controls of the well-formed prefix, so
it is unchanged only when the malformed entry comes first. -/
theorem load_from_dict_aborts_at_first_malformed (m : GitCloneManager)
    (pre : List ControlData) (bad : ControlData) (rest : List ControlData)
    (hpre : ∀ cd ∈ pre, wellFormedData cd = true)
    (hbad : wellFormedData bad = false) :
    ∃ e, GitCloneManager.load_from_dict m (some (pre ++ bad :: rest)) =
      (⟨m.controls ++ pre.map mkControl⟩, Except.error e) := by
  unfold GitCloneManager.load_from_dict
  exact loadLoop_partial pre m 0 bad rest hpre hbad

/-- Witness for the amended C1 at a concrete record. -/
theorem load_from_dict_aborts_witness :
    ∃ e, GitCloneManager.load_from_dict ⟨[]⟩ (some ([goodEntry] ++ badEntry :: [])) =
      (⟨[] ++ [goodEntry].map mkControl⟩, Except.error e) :=
  load_from_dict_aborts_at_first_malformed ⟨[]⟩ [goodEntry] badEntry []
    (by decide) (by decide)

/-- C6: a record of well-formed entries loads successfully, and
exporting the resulting manager with `to_dict` then reimporting the
export into a fresh manager yields the same ordered list of controls
(hence equal name / source / destination in the same order). -/
theorem load_to_dict_round_trip (cds : List ControlData)
    (h : ∀ cd ∈ cds, wellFormedData cd = true) :
    (GitCloneManager.load_from_dict ⟨[]⟩ (some cds)).2 = Except.ok cds.length ∧
    ((GitCloneManager.load_from_dict ⟨[]⟩
        (some (GitCloneManager.to_dict
          (GitCloneManager.load_from_dict ⟨[]⟩ (some cds)).1))).1).controls
      = ((GitCloneManager.load_from_dict ⟨[]⟩ (some cds)).1).controls := by
  have h1 : GitCloneManager.load_from_dict ⟨[]⟩ (some cds) =
      (⟨cds.map mkControl⟩, Except.ok cds.length) := by
    unfold GitCloneManager.load_from_dict
    simpa using loadLoop_all_ok cds ⟨[]⟩ 0 h
  refine ⟨by rw [h1], ?_⟩
  rw [h1]
  have h2 : ∀ cd ∈ GitCloneManager.to_dict ⟨cds.map mkControl⟩,
      wellFormedData cd = true := by
    intro cd hcd
    simp only [GitCloneManager.to_dict, List.map_map, List.mem_map,
      Function.comp] at hcd
    obtain ⟨x, hx, rfl⟩ := hcd
    exact to_dict_mkControl_wf x (h x hx)
  have h3 := loadLoop_all_ok (GitCloneManager.to_dict ⟨cds.map mkControl⟩) ⟨[]⟩ 0 h2
  show (loadControlsLoop ⟨[]⟩ 0 (GitCloneManager.to_dict ⟨cds.map mkControl⟩)).1.controls
    = cds.map mkControl
  rw [h3]
  simp [GitCloneManager.to_dict, List.map_map, Function.comp, mkControl_to_dict]

/-- Witness for C6 at a concrete record. -/
theorem load_to_dict_round_trip_witness :
    (GitCloneManager.load_from_dict ⟨[]⟩ (some [goodEntry])).2 = Except.ok 1 ∧
    ((GitCloneManager.load_from_dict ⟨[]⟩
        (some (GitCloneManager.to_dict
          (GitCloneManager.load_from_dict ⟨[]⟩ (some [goodEntry])).1))).1).controls
      = ((GitCloneManager.load_from_dict ⟨[]⟩ (some [goodEntry])).1).controls :=
  load_to_dict_round_trip [goodEntry] (by decide)

/-- `List.find?` returns the first element satisfying the predicate. -/
theorem find?_first_match {α : Type} (p : α → Bool) (pre : List α) :
    ∀ (c : α) (post : List α), (∀ x ∈ pre, p x = false) → p c = true →
      List.find? p (pre ++ c :: post) = some c := by
  induction pre with
  | nil =>
    intro c post _ hc
    simp [List.find?, hc]
  | cons a pre ih =>
    intro c post hall hc
    have ha : p a = false := hall a (List.mem_cons_self a pre)
    simp only [List.cons_append, List.find?, ha]
    exact ih c post (fun x hx => hall x (List.mem_cons_of_mem a hx)) hc

/-! ### C8 theorems -/

/-- C8: `update_by_name` with a name held by no control fails with the
distinguishable not-found error and invokes no control's `update`; with
a held name it invokes exactly the first control carrying that name and
propagates its outcome (`True`, `False`, or the raised exception). -/
theorem update_by_name_spec (m : GitCloneManager)
    (upd : GitCloneControl → UpdateOutcome) (name : String) :
    ((∀ c ∈ m.controls, c.name ≠ name) →
      m.update_by_name upd name = (Except.error (notFoundMsg name), [])) ∧
    (∀ pre c post, m.controls = pre ++ c :: post →
      (∀ x ∈ pre, x.name ≠ name) → c.name = name →
      m.update_by_name upd name =
        ((match upd c with
          | UpdateOutcome.ok => Except.ok true
          | UpdateOutcome.failed => Except.ok false
          | UpdateOutcome.raised e => Except.error e), [c])) := by
  constructor
  · intro hall
    have hn : m.controls.find? (fun c => c.name == name) = none :=
      List.find?_eq_none.mpr (fun x hx => by simpa using hall x hx)
    unfold GitCloneManager.update_by_name GitCloneManager.get_control_by_name
    rw [hn]
  · intro pre c post hsplit hpre hcname
    have hfind : m.controls.find? (fun x => x.name == name) = some c := by
      rw [hsplit]
      apply find?_first_match
      · intro x hx
        simpa using hpre x hx
      · simpa using hcname
    unfold GitCloneManager.update_by_name GitCloneManager.get_control_by_name
    rw [hfind]
    rcases hc : upd c with _ | _ | e <;> simp [hc]

/-- Witness for C8: an unknown name and the second control's name. -/
theorem update_by_name_spec_witness :
    GitCloneManager.update_by_name mgrDup (fun _ => UpdateOutcome.ok) "zzz" =
      (Except.error (notFoundMsg "zzz"), []) ∧
    GitCloneManager.update_by_name mgrDup (fun _ => UpdateOutcome.ok) "b" =
      (Except.ok true, [ctrlB]) :=
  ⟨(update_by_name_spec mgrDup (fun _ => UpdateOutcome.ok) "zzz").1 (by decide),
   (update_by_name_spec mgrDup (fun _ => UpdateOutcome.ok) "b").2
     [ctrlA] ctrlB [] rfl (by decide) rfl⟩

/-! ### C3, C4, C9 theorems -/

/-- C3: with `stop_on_error = true`, three items where the first
succeeds and the second's `update` does not succeed (returns `False` or
raises), the batch propagates a stop exception and only positions 1 and
2 are ever invoked — the third item's `update` is never called. -/
theorem update_stop_on_error_halts (c1 c2 c3 : GitCloneControl)
    (upd : Nat → UpdateOutcome)
    (h1 : upd 1 = UpdateOutcome.ok) (h2 : upd 2 ≠ UpdateOutcome.ok) :
    ∃ e st, GitCloneManager.update ⟨[c1, c2, c3]⟩ upd true =
      (Except.error e, st, [1, 2]) := by
  rcases hc : upd 2 with _ | _ | e2
  · exact absurd hc h2
  · refine ⟨stopMsg (stopMsg c2.toStr),
      ⟨1, 2, [procFailMsg 2 3 c2, errOccurMsg 2 3 c2 (stopMsg c2.toStr)]⟩, ?_⟩
    simp [GitCloneManager.update, enumFrom1, List.enum, List.enumFrom, updateLoop,
      updateItem, updateTryBody, h1, hc]
  · refine ⟨stopMsg e2, ⟨1, 1, [errOccurMsg 2 3 c2 e2]⟩, ?_⟩
    simp [GitCloneManager.update, enumFrom1, List.enum, List.enumFrom, updateLoop,
      updateItem, updateTryBody, h1, hc]

def ctrlC : GitCloneControl := ⟨"c", "http://example.com/c.git", "/clones/c"⟩

/-- The outcome oracle in which exactly item 2 fails softly. -/
def updFailAt2 : Nat → UpdateOutcome :=
  fun i => if i == 2 then UpdateOutcome.failed else UpdateOutcome.ok

/-- Witness for C3 at concrete controls and outcomes. -/
theorem update_stop_on_error_halts_witness :
    ∃ e st, GitCloneManager.update ⟨[ctrlA, ctrlB, ctrlC]⟩ updFailAt2 true =
      (Except.error e, st, [1, 2]) :=
  update_stop_on_error_halts ctrlA ctrlB ctrlC updFailAt2 rfl (by decide)

/-- C4: with `stop_on_error = false`, three items of which exactly one
returns `False`, all three positions are invoked, the overall result is
failure, and exactly one error is recorded. -/
theorem update_continue_attempts_all (c1 c2 c3 : GitCloneControl)
    (upd : Nat → UpdateOutcome) (k : Nat)
    (hk : k = 1 ∨ k = 2 ∨ k = 3)
    (hfail : upd k = UpdateOutcome.failed)
    (hok : ∀ i ∈ ([1, 2, 3] : List Nat), i ≠ k → upd i = UpdateOutcome.ok) :
    ∃ st, GitCloneManager.update ⟨[c1, c2, c3]⟩ upd false =
        (Except.ok false, st, [1, 2, 3]) ∧
      st.error_count = 1 ∧ st.errors.length = 1 := by
  rcases hk with rfl | rfl | rfl
  · have ha := hok 2 (by decide) (by decide)
    have hb := hok 3 (by decide) (by decide)
    refine ⟨⟨2, 1, [procFailMsg 1 3 c1]⟩, ?_, rfl, rfl⟩
    simp [GitCloneManager.update, enumFrom1, List.enum, List.enumFrom, updateLoop,
      updateItem, updateTryBody, hfail, ha, hb]
  · have ha := hok 1 (by decide) (by decide)
    have hb := hok 3 (by decide) (by decide)
    refine ⟨⟨2, 1, [procFailMsg 2 3 c2]⟩, ?_, rfl, rfl⟩
    simp [GitCloneManager.update, enumFrom1, List.enum, List.enumFrom, updateLoop,
      updateItem, updateTryBody, hfail, ha, hb]
  · have ha := hok 1 (by decide) (by decide)
    have hb := hok 2 (by decide) (by decide)
    refine ⟨⟨2, 1, [procFailMsg 3 3 c3]⟩, ?_, rfl, rfl⟩
    simp [GitCloneManager.update, enumFrom1, List.enum, List.enumFrom, updateLoop,
      updateItem, updateTryBody, hfail, ha, hb]

/-- Witness for C4 at concrete controls and outcomes. -/
theorem update_continue_attempts_all_witness :
    ∃ st, GitCloneManager.update ⟨[ctrlA, ctrlB, ctrlC]⟩ updFailAt2 false =
        (Except.ok false, st, [1, 2, 3]) ∧
      st.error_count = 1 ∧ st.errors.length = 1 :=
  update_continue_attempts_all ctrlA ctrlB ctrlC updFailAt2 2
    (Or.inr (Or.inl rfl)) rfl (by decide)

/-- C9: with `stop_on_error = true` and a soft failure (item 2 returns
`False` without raising), the stop exception raised in the failure
branch is caught by the same item's own handler, so the failing item is
recorded twice — `error_count` ends at 2 and two error messages are
appended for item 2 — before the re-raised stop exception propagates. -/
theorem update_soft_failure_double_recorded (c1 c2 c3 : GitCloneControl)
    (upd : Nat → UpdateOutcome)
    (h1 : upd 1 = UpdateOutcome.ok) (h2 : upd 2 = UpdateOutcome.failed) :
    GitCloneManager.update ⟨[c1, c2, c3]⟩ upd true =
      (Except.error (stopMsg (stopMsg c2.toStr)),
       ⟨1, 2, [procFailMsg 2 3 c2, errOccurMsg 2 3 c2 (stopMsg c2.toStr)]⟩,
       [1, 2]) := by
  simp [GitCloneManager.update, enumFrom1, List.enum, List.enumFrom, updateLoop,
    updateItem, updateTryBody, h1, h2]

/-- Witness for C9 at concrete controls and outcomes. -/
theorem update_soft_failure_double_recorded_witness :
    GitCloneManager.update ⟨[ctrlA, ctrlB, ctrlC]⟩ updFailAt2 true =
      (Except.error (stopMsg (stopMsg ctrlB.toStr)),
       ⟨1, 2, [procFailMsg 2 3 ctrlB, errOccurMsg 2 3 ctrlB (stopMsg ctrlB.toStr)]⟩,
       [1, 2]) :=
  update_soft_failure_double_recorded ctrlA ctrlB ctrlC updFailAt2 rfl rfl

end GitCmdTool
